import Mathlib

/-!
Verification of the Wax test server (`wax_server.py`): a shallow embedding of
its session/item store, session-identifier generation, chunked-body decoding
and HTTP dispatch, together with proofs about the specified behaviour.

Conventions of the embedding:
* Python dictionaries are modelled as association lists with unique keys, in
  insertion order; dictionary assignment (`d[k] = v`) updates the binding in
  place or appends a fresh one at the end, exactly as Python does.
* `copy.deepcopy` is the identity on pure values.
* The per-object locks make every store operation atomic; the embedding is
  the sequential semantics of the locked regions.
* Fallible Python code (uncaught exceptions) is modelled with `Except`.
-/

namespace WaxServer

/-- A JSON / Python value as handled by the server.  Stored items and request
bodies are dictionaries of string keys to such values. -/
inductive PyVal where
  | str : String → PyVal
  | int : Int → PyVal
  | bool : Bool → PyVal
  | null : PyVal
  | list : List PyVal → PyVal
  | dict : List (String × PyVal) → PyVal

mutual

def PyVal.beq : PyVal → PyVal → Bool
  | .str a, .str b => a == b
  | .int a, .int b => a == b
  | .bool a, .bool b => a == b
  | .null, .null => true
  | .list a, .list b => PyVal.beqList a b
  | .dict a, .dict b => PyVal.beqDict a b
  | _, _ => false
termination_by structural a => a

def PyVal.beqList : List PyVal → List PyVal → Bool
  | [], [] => true
  | x :: xs, y :: ys => PyVal.beq x y && PyVal.beqList xs ys
  | _, _ => false
termination_by structural a => a

def PyVal.beqDict : List (String × PyVal) → List (String × PyVal) → Bool
  | [], [] => true
  | (k, v) :: xs, (k', v') :: ys => k == k' && PyVal.beq v v' && PyVal.beqDict xs ys
  | _, _ => false
termination_by structural a => a

end

mutual

theorem PyVal.eq_of_beq : ∀ a b : PyVal, PyVal.beq a b = true → a = b
  | .str a, .str b, h => by simp [PyVal.beq] at h; rw [h]
  | .int a, .int b, h => by simp [PyVal.beq] at h; rw [h]
  | .bool a, .bool b, h => by simp [PyVal.beq] at h; rw [h]
  | .null, .null, _ => rfl
  | .list a, .list b, h => by
      simp only [PyVal.beq] at h
      rw [PyVal.eqList_of_beqList a b h]
  | .dict a, .dict b, h => by
      simp only [PyVal.beq] at h
      rw [PyVal.eqDict_of_beqDict a b h]
  | .str _, .int _, h | .str _, .bool _, h | .str _, .null, h | .str _, .list _, h | .str _, .dict _, h
  | .int _, .str _, h | .int _, .bool _, h | .int _, .null, h | .int _, .list _, h | .int _, .dict _, h
  | .bool _, .str _, h | .bool _, .int _, h | .bool _, .null, h | .bool _, .list _, h | .bool _, .dict _, h
  | .null, .str _, h | .null, .int _, h | .null, .bool _, h | .null, .list _, h | .null, .dict _, h
  | .list _, .str _, h | .list _, .int _, h | .list _, .bool _, h | .list _, .null, h | .list _, .dict _, h
  | .dict _, .str _, h | .dict _, .int _, h | .dict _, .bool _, h | .dict _, .null, h | .dict _, .list _, h =>
      by simp [PyVal.beq] at h
termination_by structural a => a

theorem PyVal.eqList_of_beqList : ∀ a b : List PyVal, PyVal.beqList a b = true → a = b
  | [], [], _ => rfl
  | x :: xs, y :: ys, h => by
      simp only [PyVal.beqList, Bool.and_eq_true] at h
      rw [PyVal.eq_of_beq x y h.1, PyVal.eqList_of_beqList xs ys h.2]
  | [], _ :: _, h => by simp [PyVal.beqList] at h
  | _ :: _, [], h => by simp [PyVal.beqList] at h
termination_by structural a => a

theorem PyVal.eqDict_of_beqDict : ∀ a b : List (String × PyVal), PyVal.beqDict a b = true → a = b
  | [], [], _ => rfl
  | (k, v) :: xs, (k', v') :: ys, h => by
      simp only [PyVal.beqDict, Bool.and_eq_true, beq_iff_eq] at h
      rw [h.1.1, PyVal.eq_of_beq v v' h.1.2, PyVal.eqDict_of_beqDict xs ys h.2]
  | [], _ :: _, h => by simp [PyVal.beqDict] at h
  | _ :: _, [], h => by simp [PyVal.beqDict] at h
termination_by structural a => a

end

mutual

theorem PyVal.beq_refl : ∀ a : PyVal, PyVal.beq a a = true
  | .str a => by simp [PyVal.beq]
  | .int a => by simp [PyVal.beq]
  | .bool a => by simp [PyVal.beq]
  | .null => rfl
  | .list a => by simp only [PyVal.beq]; exact PyVal.beqList_refl a
  | .dict a => by simp only [PyVal.beq]; exact PyVal.beqDict_refl a
termination_by structural a => a

theorem PyVal.beqList_refl : ∀ a : List PyVal, PyVal.beqList a a = true
  | [] => rfl
  | x :: xs => by
      simp only [PyVal.beqList, Bool.and_eq_true]
      exact ⟨PyVal.beq_refl x, PyVal.beqList_refl xs⟩
termination_by structural a => a

theorem PyVal.beqDict_refl : ∀ a : List (String × PyVal), PyVal.beqDict a a = true
  | [] => rfl
  | (k, v) :: xs => by
      simp only [PyVal.beqDict, Bool.and_eq_true, beq_self_eq_true]
      exact ⟨⟨trivial, PyVal.beq_refl v⟩, PyVal.beqDict_refl xs⟩
termination_by structural a => a

end

instance : DecidableEq PyVal := fun a b =>
  if h : PyVal.beq a b = true then .isTrue (PyVal.eq_of_beq a b h)
  else .isFalse (fun he => h (he ▸ PyVal.beq_refl a))

/-- A Python dictionary with string keys: an association list in insertion
order with unique keys. -/
abbrev Item := List (String × PyVal)

/-- Association-list lookup: the value of the first binding of key `k`
(`d[k]` / `d.get(k)` for a duplicate-free list). -/
def alistGet {α : Type} : List (String × α) → String → Option α
  | [], _ => none
  | p :: rest, k => if p.1 = k then some p.2 else alistGet rest k

/-- Python dictionary assignment `d[k] = v`: replaces the first binding of `k`
in place (keeping its position), or appends a new binding at the end. -/
def alistSet {α : Type} : List (String × α) → String → α → List (String × α)
  | [], k, v => [(k, v)]
  | p :: rest, k, v => if p.1 = k then (k, v) :: rest else p :: alistSet rest k v

/-- The keys of an association list are pairwise distinct (every Python
dictionary satisfies this). -/
def NodupKeys {α : Type} (d : List (String × α)) : Prop := (d.map Prod.fst).Nodup

/-- Models `dict(pairs)`: build a dictionary from a pair sequence, later pairs
overwriting earlier ones. -/
def dictFromPairs (ps : List (String × PyVal)) : Item :=
  ps.foldl (fun d p => alistSet d p.1 p.2) []

/-- Models `dict(a.items() + b.items())`, the merge used by `SessionData.PatchItem`:
bindings of `a` first, then bindings of `b`, later (patch) bindings winning. -/
def dictUnion (a b : Item) : Item := dictFromPairs (a ++ b)

/-! ## SessionData

`SessionData` holds `self._items`, an ordered list of items.  Every operation
runs under the session's lock; `copy.deepcopy` is the identity on values. -/

/-- The `kind` constant stamped onto items. -/
def waxKind : String := "wax#waxDataItem"

/-- Models `item['id']`, as an optional lookup (the server only ever stores items
that carry an `id`). -/
def itemId (it : Item) : Option PyVal := alistGet it "id"

/-- Models `SessionData.AddWaxKind`: sets `item['kind'] = 'wax#waxDataItem'`. -/
def AddWaxKind (it : Item) : Item := alistSet it "kind" (PyVal.str waxKind)

/-- Models `SessionData._FindItem`: first item whose `'id'` equals `key` (the key a
caller passes is an arbitrary Python value; the URL handlers pass strings). -/
def FindItem (items : List Item) (key : PyVal) : Option Item :=
  items.find? (fun it => decide (itemId it = some key))

/-- Models `SessionData.AddNewItem`: if no item with `key` exists, stamp `kind` on
the argument, append a (deep copy of the) stamped item, and return it;
otherwise return `None` and leave the list unchanged. -/
def AddNewItem (items : List Item) (key : PyVal) (it : Item) :
    Option Item × List Item :=
  match FindItem items key with
  | some _ => (none, items)
  | none =>
      let wax := AddWaxKind it
      (some wax, items ++ [wax])

/-- Models `SessionData.ReplaceItem`: stamp `kind`, remove the first item with `key`
if present, append the stamped item, return it. -/
def ReplaceItem (items : List Item) (key : PyVal) (it : Item) :
    Item × List Item :=
  let wax := AddWaxKind it
  match FindItem items key with
  | some si => (wax, items.erase si ++ [wax])
  | none => (wax, items ++ [wax])

/-- Models `SessionData.PatchItem`: if an item with `key` exists, remove it, build
`dict(session_item.items() + item.items())`, append that merged item and
return it; otherwise return `None` and leave the list unchanged.  (No `kind`
stamping happens here.) -/
def PatchItem (items : List Item) (key : PyVal) (it : Item) :
    Option Item × List Item :=
  match FindItem items key with
  | some si =>
      let wax := dictUnion si it
      (some wax, items.erase si ++ [wax])
  | none => (none, items)

/-- Models `SessionData.DeleteItem`: remove and return the first item with `key`,
or return `None`. -/
def DeleteItem (items : List Item) (key : PyVal) : Option Item × List Item :=
  match FindItem items key with
  | some si => (some si, items.erase si)
  | none => (none, items)

/-- Models `SessionData.GetItemCopy`: a (deep) copy of the item with `key`, if any. -/
def GetItemCopy (items : List Item) (key : PyVal) : Option Item :=
  FindItem items key

/-- Models `SessionData.GetAllItemsCopy`: a (deep) copy of the whole item list. -/
def GetAllItemsCopy (items : List Item) : List Item := items

/-- Models `SessionData.__init__`: the fresh session, seeded with items A and B
(both run through `AddWaxKind`). -/
def initSession : List Item :=
  [AddWaxKind [("id", PyVal.str "A"), ("name", PyVal.str "Item A")],
   AddWaxKind [("id", PyVal.str "B"), ("name", PyVal.str "Item B")]]

/-! ## Basic dictionary lemmas -/

theorem alistGet_alistSet {α : Type} (d : List (String × α)) (k f : String) (v : α) :
    alistGet (alistSet d k v) f = if f = k then some v else alistGet d f := by
  induction d with
  | nil =>
      by_cases hfk : f = k
      · simp [alistSet, alistGet, hfk]
      · have h1 : ¬k = f := fun h => hfk h.symm
        simp [alistSet, alistGet, h1, hfk]
  | cons p rest ih =>
      obtain ⟨q, w⟩ := p
      by_cases hqk : q = k
      · subst hqk
        by_cases hfq : f = q
        · subst hfq; simp [alistSet, alistGet]
        · have h1 : ¬q = f := fun h => hfq h.symm
          simp [alistSet, alistGet, h1, hfq]
      · by_cases hqf : q = f
        · subst hqf
          simp [alistSet, alistGet, hqk]
        · simp [alistSet, alistGet, hqk, hqf, ih]

/-- The value of `f` after folding dictionary assignments over `ps`: the last
binding of `f` in `ps` wins. -/
def lastBind : List (String × PyVal) → String → Option PyVal
  | [], _ => none
  | p :: rest, f => (lastBind rest f).or (if p.1 = f then some p.2 else none)

theorem alistGet_foldl_alistSet (ps : List (String × PyVal)) :
    ∀ (d : Item) (f : String),
      alistGet (ps.foldl (fun d p => alistSet d p.1 p.2) d) f =
        (lastBind ps f).or (alistGet d f) := by
  induction ps with
  | nil => intro d f; simp [lastBind]
  | cons p rest ih =>
      intro d f
      rw [List.foldl_cons, ih, lastBind]
      rcases h : lastBind rest f with _ | v
      · rw [Option.none_or, Option.none_or, alistGet_alistSet]
        by_cases hfp : f = p.1
        · rw [if_pos hfp, if_pos hfp.symm]; rfl
        · rw [if_neg hfp, if_neg (fun hh => hfp hh.symm), Option.none_or]
      · rfl

theorem alistGet_dictFromPairs (ps : List (String × PyVal)) (f : String) :
    alistGet (dictFromPairs ps) f = lastBind ps f := by
  rw [dictFromPairs, alistGet_foldl_alistSet]
  cases lastBind ps f <;> simp [alistGet]

theorem lastBind_append (a b : List (String × PyVal)) (f : String) :
    lastBind (a ++ b) f = (lastBind b f).or (lastBind a f) := by
  induction a with
  | nil => simp [lastBind]
  | cons p rest ih => simp [lastBind, ih, Option.or_assoc]

theorem lastBind_of_not_mem (d : List (String × PyVal)) (f : String)
    (h : f ∉ d.map Prod.fst) : lastBind d f = none := by
  induction d with
  | nil => rfl
  | cons p rest ih =>
      simp only [List.map_cons, List.mem_cons] at h
      push_neg at h
      have : ¬p.1 = f := fun hh => h.1 hh.symm
      simp [lastBind, ih h.2, this]

theorem lastBind_eq_alistGet (d : Item) (f : String) (h : NodupKeys d) :
    lastBind d f = alistGet d f := by
  induction d with
  | nil => rfl
  | cons p rest ih =>
      simp only [NodupKeys, List.map_cons, List.nodup_cons] at h
      by_cases hpf : p.1 = f
      · have hnone : lastBind rest f = none :=
          lastBind_of_not_mem rest f (by rw [← hpf]; exact h.1)
        simp [lastBind, alistGet, hnone, hpf]
      · simp [lastBind, alistGet, hpf, ih h.2]

/-- The merge performed by `PatchItem`: patch bindings win, everything else is
retained from the original. -/
theorem alistGet_dictUnion (a b : Item) (ha : NodupKeys a) (hb : NodupKeys b)
    (f : String) :
    alistGet (dictUnion a b) f = (alistGet b f).or (alistGet a f) := by
  rw [dictUnion, alistGet_dictFromPairs, lastBind_append,
    lastBind_eq_alistGet a f ha, lastBind_eq_alistGet b f hb]

theorem mem_keys_alistSet {α : Type} (d : List (String × α)) (k : String) (v : α)
    (x : String) (h : x ∈ (alistSet d k v).map Prod.fst) :
    x ∈ d.map Prod.fst ∨ x = k := by
  induction d with
  | nil =>
      simp [alistSet] at h
      exact Or.inr h
  | cons p rest ih =>
      by_cases hpk : p.1 = k
      · simp only [alistSet, if_pos hpk, List.map_cons, List.mem_cons] at h
        rcases h with h | h
        · exact Or.inr h
        · exact Or.inl (by simp [h])
      · simp only [alistSet, if_neg hpk, List.map_cons, List.mem_cons] at h
        rcases h with h | h
        · exact Or.inl (by simp [h])
        · rcases ih h with h1 | h1
          · exact Or.inl (by simp [h1])
          · exact Or.inr h1

theorem alistSet_nodupKeys {α : Type} (d : List (String × α)) (k : String) (v : α)
    (h : (d.map Prod.fst).Nodup) : ((alistSet d k v).map Prod.fst).Nodup := by
  induction d with
  | nil => simp [alistSet]
  | cons p rest ih =>
      simp only [List.map_cons, List.nodup_cons] at h
      by_cases hpk : p.1 = k
      · simp only [alistSet, if_pos hpk, List.map_cons, List.nodup_cons]
        exact ⟨by rw [← hpk]; exact h.1, h.2⟩
      · simp only [alistSet, if_neg hpk, List.map_cons, List.nodup_cons]
        refine ⟨fun hmem => ?_, ih h.2⟩
        rcases mem_keys_alistSet rest k v p.1 hmem with h1 | h1
        · exact h.1 h1
        · exact hpk h1

theorem dictFromPairs_nodupKeys (ps : List (String × PyVal)) :
    NodupKeys (dictFromPairs ps) := by
  rw [dictFromPairs]
  suffices h : ∀ d : Item, NodupKeys d →
      NodupKeys (ps.foldl (fun d p => alistSet d p.1 p.2) d) from
    h [] (by simp [NodupKeys])
  induction ps with
  | nil => intro d hd; simpa using hd
  | cons p rest ih =>
      intro d hd
      exact ih _ (alistSet_nodupKeys d p.1 p.2 hd)

theorem dictUnion_nodupKeys (a b : Item) : NodupKeys (dictUnion a b) :=
  dictFromPairs_nodupKeys _

theorem AddWaxKind_nodupKeys (it : Item) (h : NodupKeys it) :
    NodupKeys (AddWaxKind it) := alistSet_nodupKeys it _ _ h

theorem itemId_AddWaxKind (it : Item) : itemId (AddWaxKind it) = itemId it := by
  simp [itemId, AddWaxKind, alistGet_alistSet]

theorem kind_AddWaxKind (it : Item) :
    alistGet (AddWaxKind it) "kind" = some (PyVal.str waxKind) := by
  simp [AddWaxKind, alistGet_alistSet]

/-! ## FindItem lemmas -/

theorem FindItem_eq_none_iff (items : List Item) (key : PyVal) :
    FindItem items key = none ↔ ∀ it ∈ items, itemId it ≠ some key := by
  simp [FindItem, List.find?_eq_none]

theorem FindItem_some {items : List Item} {key : PyVal} {si : Item}
    (h : FindItem items key = some si) : itemId si = some key ∧ si ∈ items :=
  ⟨by have := List.find?_some h; simpa using this, List.mem_of_find?_eq_some h⟩

/-! ## Sequences of store operations

Arbitrary client-visible mutations of one session, used to state the
store-level invariants. -/

inductive Op where
  | add (key : PyVal) (it : Item)
  | replace (key : PyVal) (it : Item)
  | patch (key : PyVal) (it : Item)
  | delete (key : PyVal)

/-- The state change of one store operation (the returned value is dropped). -/
def applyOp (s : List Item) : Op → List Item
  | .add k it => (AddNewItem s k it).2
  | .replace k it => (ReplaceItem s k it).2
  | .patch k it => (PatchItem s k it).2
  | .delete k => (DeleteItem s k).2

/-- Run a sequence of store operations from a given session state. -/
def run (s : List Item) (ops : List Op) : List Item := ops.foldl applyOp s

/-- No two items stored in a session have equal `id` values. -/
def UniqueIds (s : List Item) : Prop :=
    s.Pairwise (fun a b => itemId a ≠ itemId b)

instance {α : Type} (d : List (String × α)) : Decidable (NodupKeys d) :=
  inferInstanceAs (Decidable ((d.map Prod.fst).Nodup))

instance (s : List Item) : Decidable (UniqueIds s) :=
  inferInstanceAs (Decidable (s.Pairwise _))

/-- Key-consistency of an operation: the item dictionary's `id` field agrees
with the key argument (this is what the HTTP layer guarantees: POST uses the
body's own `id` as the key, PUT rejects mismatches, PATCH uses the URL id).
Dictionaries always have duplicate-free keys. -/
def opOk : Op → Prop
  | .add k it => itemId it = some k ∧ NodupKeys it
  | .replace k it => itemId it = some k ∧ NodupKeys it
  | .patch k it => NodupKeys it ∧ (alistGet it "id" = none ∨ alistGet it "id" = some k)
  | .delete _ => True

instance : DecidablePred opOk := fun op =>
  match op with
  | .add k it => inferInstanceAs (Decidable (itemId it = some k ∧ NodupKeys it))
  | .replace k it => inferInstanceAs (Decidable (itemId it = some k ∧ NodupKeys it))
  | .patch k it =>
      inferInstanceAs (Decidable (NodupKeys it ∧ (alistGet it "id" = none ∨ alistGet it "id" = some k)))
  | .delete _ => inferInstanceAs (Decidable True)

theorem nodup_of_uniqueIds {s : List Item} (h : UniqueIds s) : s.Nodup :=
  h.imp (fun hab => fun he => hab (by rw [he]))

theorem uniqueIds_erase_key {s : List Item} {key : PyVal} {si : Item}
    (h : UniqueIds s) (hf : FindItem s key = some si) :
    ∀ it ∈ s.erase si, itemId it ≠ some key := by
  intro it hit hcontra
  obtain ⟨hid, hmem⟩ := FindItem_some hf
  obtain ⟨hne, hmem'⟩ := ((nodup_of_uniqueIds h).mem_erase_iff).mp hit
  have hpair := List.Pairwise.forall (R := fun a b => itemId a ≠ itemId b)
      (fun _ _ hab he => hab he.symm) h hmem' hmem hne
  exact hpair (hcontra.trans hid.symm)

theorem uniqueIds_append_new {s : List Item} {w : Item} {key : PyVal}
    (h : UniqueIds s) (hall : ∀ it ∈ s, itemId it ≠ some key)
    (hw : itemId w = some key) : UniqueIds (s ++ [w]) := by
  rw [UniqueIds, List.pairwise_append]
  refine ⟨h, List.pairwise_singleton _ _, fun a ha b hb => ?_⟩
  rw [List.mem_singleton] at hb
  subst hb
  rw [hw]
  exact hall a ha

/-- One operation preserves id-uniqueness and duplicate-free item keys,
provided the operation is key-consistent. -/
theorem invariant_applyOp (s : List Item) (op : Op)
    (h : UniqueIds s) (hk : ∀ it ∈ s, NodupKeys it) (hop : opOk op) :
    UniqueIds (applyOp s op) ∧ ∀ it ∈ applyOp s op, NodupKeys it := by
  cases op with
  | add key it =>
      obtain ⟨hid, hnk⟩ := hop
      cases hf : FindItem s key with
      | some si => simpa [applyOp, AddNewItem, hf] using ⟨h, hk⟩
      | none =>
          simp only [applyOp, AddNewItem, hf]
          refine ⟨uniqueIds_append_new h ((FindItem_eq_none_iff s key).mp hf)
            (by rw [itemId_AddWaxKind, hid]), fun x hx => ?_⟩
          rcases List.mem_append.mp hx with hx | hx
          · exact hk x hx
          · rw [List.mem_singleton] at hx
            subst hx
            exact AddWaxKind_nodupKeys it hnk
  | replace key it =>
      obtain ⟨hid, hnk⟩ := hop
      cases hf : FindItem s key with
      | some si =>
          have hsub := List.erase_sublist si s
          simp only [applyOp, ReplaceItem, hf]
          refine ⟨uniqueIds_append_new (h.sublist hsub) (uniqueIds_erase_key h hf)
            (by rw [itemId_AddWaxKind, hid]), fun x hx => ?_⟩
          rcases List.mem_append.mp hx with hx | hx
          · exact hk x (hsub.subset hx)
          · rw [List.mem_singleton] at hx
            subst hx
            exact AddWaxKind_nodupKeys it hnk
      | none =>
          simp only [applyOp, ReplaceItem, hf]
          refine ⟨uniqueIds_append_new h ((FindItem_eq_none_iff s key).mp hf)
            (by rw [itemId_AddWaxKind, hid]), fun x hx => ?_⟩
          rcases List.mem_append.mp hx with hx | hx
          · exact hk x hx
          · rw [List.mem_singleton] at hx
            subst hx
            exact AddWaxKind_nodupKeys it hnk
  | patch key it =>
      obtain ⟨hnk, hidopt⟩ := hop
      cases hf : FindItem s key with
      | none => simpa [applyOp, PatchItem, hf] using ⟨h, hk⟩
      | some si =>
          obtain ⟨hsid, hsimem⟩ := FindItem_some hf
          have hsub := List.erase_sublist si s
          have hwid : itemId (dictUnion si it) = some key := by
            rw [itemId, alistGet_dictUnion si it (hk si hsimem) hnk]
            rcases hidopt with h0 | h0
            · rw [h0, Option.none_or, ← itemId, hsid]
            · rw [h0]; rfl
          simp only [applyOp, PatchItem, hf]
          refine ⟨uniqueIds_append_new (h.sublist hsub) (uniqueIds_erase_key h hf)
            hwid, fun x hx => ?_⟩
          rcases List.mem_append.mp hx with hx | hx
          · exact hk x (hsub.subset hx)
          · rw [List.mem_singleton] at hx
            subst hx
            exact dictUnion_nodupKeys si it
  | delete key =>
      cases hf : FindItem s key with
      | none => simpa [applyOp, DeleteItem, hf] using ⟨h, hk⟩
      | some si =>
          have hsub := List.erase_sublist si s
          simp only [applyOp, DeleteItem, hf]
          exact ⟨h.sublist hsub, fun x hx => hk x (hsub.subset hx)⟩

theorem invariant_run : ∀ (ops : List Op) (s : List Item),
    UniqueIds s → (∀ it ∈ s, NodupKeys it) → (∀ op ∈ ops, opOk op) →
    UniqueIds (run s ops) ∧ ∀ it ∈ run s ops, NodupKeys it
  | [], _, h, hk, _ => ⟨h, hk⟩
  | op :: rest, s, h, hk, hops => by
      have h1 := invariant_applyOp s op h hk (hops op (List.mem_cons_self op rest))
      exact invariant_run rest (applyOp s op) h1.1 h1.2
        (fun o ho => hops o (List.mem_cons_of_mem _ ho))

/-- Claim C1 (amended): starting from the fresh A/B session, any sequence of
AddNewItem / ReplaceItem / PatchItem / DeleteItem operations keeps item ids
pairwise distinct, *provided* each operation's item dictionary is
key-consistent (its `id` field, when present, equals the operation's key) —
the unrestricted claim is false, see `claim1_counterexample`. -/
theorem claim1_unique_ids_amended (ops : List Op) (hops : ∀ op ∈ ops, opOk op) :
    UniqueIds (run initSession ops) :=
  (invariant_run ops initSession (by decide) (by decide) hops).1

theorem claim1_unique_ids_amended_witness :
    UniqueIds (run initSession
      [Op.add (PyVal.str "C") [("id", PyVal.str "C"), ("name", PyVal.str "x")],
       Op.patch (PyVal.str "C") [("name", PyVal.str "y")],
       Op.delete (PyVal.str "A")]) :=
  claim1_unique_ids_amended _ (by decide)

/-- Claim C1 (counterexample): `AddNewItem` checks uniqueness of the *key*
argument but stores the item with its own `id` field, so an operation whose
item carries a different `id` creates a duplicate: adding key `"C"` with item
`{id: "A"}` to the fresh session leaves two items with id `"A"`. -/
theorem claim1_counterexample :
    ¬ UniqueIds (run initSession [Op.add (PyVal.str "C") [("id", PyVal.str "A")]]) := by
  decide

/-- Claim C2: `PatchItem(k, p)` on a session containing an item with id `k`
produces `dict(old.items() + p.items())` — the shallow merge in which `p`'s
top-level bindings win and bindings absent from `p` are retained — removes
the old entry, appends the merged item at the end, and returns the merged
item; on an absent key it returns `None` and leaves the state unchanged. -/
theorem claim2_patch_merge (s : List Item) (k : PyVal) (p : Item)
    (hs : ∀ it ∈ s, NodupKeys it) (hp : NodupKeys p) :
    (∀ si, FindItem s k = some si →
        PatchItem s k p = (some (dictUnion si p), s.erase si ++ [dictUnion si p]) ∧
        ∀ f, alistGet (dictUnion si p) f = (alistGet p f).or (alistGet si f)) ∧
    (FindItem s k = none → PatchItem s k p = (none, s)) := by
  constructor
  · intro si hsi
    refine ⟨by simp [PatchItem, hsi], fun f => ?_⟩
    exact alistGet_dictUnion si p (hs si (FindItem_some hsi).2) hp f
  · intro h
    simp [PatchItem, h]

theorem claim2_patch_merge_witness :
    PatchItem [[("id", PyVal.str "k"), ("name", PyVal.str "old"), ("extra", PyVal.int 1)]]
        (PyVal.str "k") [("name", PyVal.str "X")] =
      (some [("id", PyVal.str "k"), ("name", PyVal.str "X"), ("extra", PyVal.int 1)],
       [[("id", PyVal.str "k"), ("name", PyVal.str "X"), ("extra", PyVal.int 1)]]) ∧
    alistGet [("id", PyVal.str "k"), ("name", PyVal.str "X"), ("extra", PyVal.int 1)] "name" =
      (alistGet [("name", PyVal.str "X")] "name").or
        (alistGet [("id", PyVal.str "k"), ("name", PyVal.str "old"), ("extra", PyVal.int 1)] "name") := by
  have h := (claim2_patch_merge
      [[("id", PyVal.str "k"), ("name", PyVal.str "old"), ("extra", PyVal.int 1)]]
      (PyVal.str "k") [("name", PyVal.str "X")] (by decide) (by decide)).1
      [("id", PyVal.str "k"), ("name", PyVal.str "old"), ("extra", PyVal.int 1)] (by decide)
  have e : ([("id", PyVal.str "k"), ("name", PyVal.str "X"), ("extra", PyVal.int 1)] : Item) =
      dictUnion [("id", PyVal.str "k"), ("name", PyVal.str "old"), ("extra", PyVal.int 1)]
        [("name", PyVal.str "X")] := by decide
  refine ⟨h.1.trans (by decide), ?_⟩
  rw [e]
  exact h.2 "name"

/-- Claim C5 (amended): if `AddNewItem(k, v1)` succeeded *and* `v1`'s `id`
field equals `k`, then a subsequent `AddNewItem(k, v2)` returns `None` and
leaves the item list unchanged, and the stored item with id `k` is still
`v1` stamped with `kind`.  (Without the id/key agreement the claim is false,
see `claim5_counterexample`.) -/
theorem claim5_add_twice_amended (s : List Item) (k : PyVal) (v1 r1 : Item)
    (s1 : List Item) (v2 : Item) (hid : itemId v1 = some k)
    (h1 : AddNewItem s k v1 = (some r1, s1)) :
    AddNewItem s1 k v2 = (none, s1) ∧ FindItem s1 k = some (AddWaxKind v1) ∧
      r1 = AddWaxKind v1 ∧ s1 = s ++ [AddWaxKind v1] := by
  have hn : FindItem s k = none := by
    cases hf : FindItem s k with
    | none => rfl
    | some si => rw [AddNewItem, hf] at h1; simp at h1
  rw [AddNewItem, hn] at h1
  simp only [Prod.mk.injEq, Option.some.injEq] at h1
  obtain ⟨hr, hs1⟩ := h1
  have hfind : FindItem s1 k = some (AddWaxKind v1) := by
    rw [← hs1, FindItem, List.find?_append]
    rw [FindItem] at hn
    rw [hn, Option.none_or]
    simp [List.find?, itemId_AddWaxKind, hid]
  refine ⟨?_, hfind, hr.symm, hs1.symm⟩
  rw [AddNewItem, hfind]

theorem claim5_add_twice_amended_witness :
    AddNewItem (initSession ++ [AddWaxKind [("id", PyVal.str "C")]]) (PyVal.str "C")
        [("id", PyVal.str "C"), ("name", PyVal.str "y")] =
      (none, initSession ++ [AddWaxKind [("id", PyVal.str "C")]]) ∧
    FindItem (initSession ++ [AddWaxKind [("id", PyVal.str "C")]]) (PyVal.str "C") =
      some (AddWaxKind [("id", PyVal.str "C")]) := by
  have h := claim5_add_twice_amended initSession (PyVal.str "C")
      [("id", PyVal.str "C")] (AddWaxKind [("id", PyVal.str "C")])
      (initSession ++ [AddWaxKind [("id", PyVal.str "C")]])
      [("id", PyVal.str "C"), ("name", PyVal.str "y")]
      (by decide) (by decide)
  exact ⟨h.1, h.2.1⟩

/-- Claim C5 (counterexample): with `v1 = {id: "D"}` and key `"C"`, the first
`AddNewItem("C", v1)` succeeds (the fresh session has no item with id `"C"`),
but the stored item's id is `"D"`, so the second `AddNewItem("C", v2)` also
succeeds — it does not return absent, and it appends a new item. -/
theorem claim5_counterexample :
    (AddNewItem initSession (PyVal.str "C") [("id", PyVal.str "D")]).1.isSome = true ∧
    (AddNewItem (AddNewItem initSession (PyVal.str "C") [("id", PyVal.str "D")]).2
        (PyVal.str "C") [("id", PyVal.str "E")]).1.isSome = true ∧
    (AddNewItem (AddNewItem initSession (PyVal.str "C") [("id", PyVal.str "D")]).2
        (PyVal.str "C") [("id", PyVal.str "E")]).2.length =
      (AddNewItem initSession (PyVal.str "C") [("id", PyVal.str "D")]).2.length + 1 := by
  decide

/-! ## C3: the `kind` stamp -/

/-- Conditions under which the kind invariant is preserved: `AddNewItem` and
`ReplaceItem` stamp `kind` themselves, but `PatchItem` does not, so its patch
dictionary must not carry a `kind` binding. -/
def kindOk : Op → Prop
  | .add _ it => NodupKeys it
  | .replace _ it => NodupKeys it
  | .patch _ it => NodupKeys it ∧ alistGet it "kind" = none
  | .delete _ => True

instance : DecidablePred kindOk := fun op =>
  match op with
  | .add _ it => inferInstanceAs (Decidable (NodupKeys it))
  | .replace _ it => inferInstanceAs (Decidable (NodupKeys it))
  | .patch _ it => inferInstanceAs (Decidable (NodupKeys it ∧ alistGet it "kind" = none))
  | .delete _ => inferInstanceAs (Decidable True)

theorem kind_invariant_applyOp (s : List Item) (op : Op)
    (h : ∀ it ∈ s, alistGet it "kind" = some (PyVal.str waxKind) ∧ NodupKeys it)
    (hop : kindOk op) :
    ∀ it ∈ applyOp s op, alistGet it "kind" = some (PyVal.str waxKind) ∧ NodupKeys it := by
  cases op with
  | add key it =>
      cases hf : FindItem s key with
      | some si => simpa [applyOp, AddNewItem, hf] using h
      | none =>
          simp only [applyOp, AddNewItem, hf]
          intro x hx
          rcases List.mem_append.mp hx with hx | hx
          · exact h x hx
          · rw [List.mem_singleton] at hx
            subst hx
            exact ⟨kind_AddWaxKind it, AddWaxKind_nodupKeys it hop⟩
  | replace key it =>
      cases hf : FindItem s key with
      | some si =>
          have hsub := List.erase_sublist si s
          simp only [applyOp, ReplaceItem, hf]
          intro x hx
          rcases List.mem_append.mp hx with hx | hx
          · exact h x (hsub.subset hx)
          · rw [List.mem_singleton] at hx
            subst hx
            exact ⟨kind_AddWaxKind it, AddWaxKind_nodupKeys it hop⟩
      | none =>
          simp only [applyOp, ReplaceItem, hf]
          intro x hx
          rcases List.mem_append.mp hx with hx | hx
          · exact h x hx
          · rw [List.mem_singleton] at hx
            subst hx
            exact ⟨kind_AddWaxKind it, AddWaxKind_nodupKeys it hop⟩
  | patch key it =>
      obtain ⟨hnk, hnokind⟩ := hop
      cases hf : FindItem s key with
      | none => simpa [applyOp, PatchItem, hf] using h
      | some si =>
          obtain ⟨_, hsimem⟩ := FindItem_some hf
          have hsub := List.erase_sublist si s
          simp only [applyOp, PatchItem, hf]
          intro x hx
          rcases List.mem_append.mp hx with hx | hx
          · exact h x (hsub.subset hx)
          · rw [List.mem_singleton] at hx
            subst hx
            refine ⟨?_, dictUnion_nodupKeys si it⟩
            rw [alistGet_dictUnion si it (h si hsimem).2 hnk, hnokind, Option.none_or]
            exact (h si hsimem).1
  | delete key =>
      cases hf : FindItem s key with
      | none => simpa [applyOp, DeleteItem, hf] using h
      | some si =>
          have hsub := List.erase_sublist si s
          simp only [applyOp, DeleteItem, hf]
          exact fun x hx => h x (hsub.subset hx)

theorem kind_invariant_run : ∀ (ops : List Op) (s : List Item),
    (∀ it ∈ s, alistGet it "kind" = some (PyVal.str waxKind) ∧ NodupKeys it) →
    (∀ op ∈ ops, kindOk op) →
    ∀ it ∈ run s ops, alistGet it "kind" = some (PyVal.str waxKind) ∧ NodupKeys it
  | [], _, h, _ => h
  | op :: rest, s, h, hops =>
      kind_invariant_run rest (applyOp s op)
        (kind_invariant_applyOp s op h (hops op (List.mem_cons_self op rest)))
        (fun o ho => hops o (List.mem_cons_of_mem _ ho))

/-- Claim C3 (amended): `AddNewItem` and `ReplaceItem` stamp the stored item's
`kind` with `'wax#waxDataItem'` regardless of the input's `kind`; but
`PatchItem` does *not* stamp — the merged item's `kind` is the patch's value
when the patch carries one, otherwise the stored item's.  Consequently every
retrievable item has the constant `kind` only as long as no patch dictionary
carries a `kind` binding (the unconditional claim is false, see
`claim3_counterexample`). -/
theorem claim3_kind_amended :
    (∀ (s : List Item) (k : PyVal) (it r : Item), (AddNewItem s k it).1 = some r →
        alistGet r "kind" = some (PyVal.str waxKind)) ∧
    (∀ (s : List Item) (k : PyVal) (it : Item),
        alistGet (ReplaceItem s k it).1 "kind" = some (PyVal.str waxKind)) ∧
    (∀ si p : Item, NodupKeys si → NodupKeys p →
        alistGet (dictUnion si p) "kind" = (alistGet p "kind").or (alistGet si "kind")) ∧
    (∀ ops : List Op, (∀ op ∈ ops, kindOk op) →
        ∀ it ∈ run initSession ops, alistGet it "kind" = some (PyVal.str waxKind)) := by
  refine ⟨fun s k it r h => ?_, fun s k it => ?_, fun si p hsi hp => ?_, fun ops hops it hit => ?_⟩
  · cases hf : FindItem s k with
    | some si => rw [AddNewItem, hf] at h; simp at h
    | none =>
        rw [AddNewItem, hf] at h
        simp only [Option.some.injEq] at h
        rw [← h]
        exact kind_AddWaxKind it
  · cases hf : FindItem s k <;> simp [ReplaceItem, hf, kind_AddWaxKind]
  · exact alistGet_dictUnion si p hsi hp "kind"
  · exact (kind_invariant_run ops initSession (by decide) hops it hit).1

theorem claim3_kind_amended_witness :
    alistGet (ReplaceItem initSession (PyVal.str "A")
        [("id", PyVal.str "A"), ("kind", PyVal.str "bogus")]).1 "kind" =
      some (PyVal.str waxKind) ∧
    alistGet [("id", PyVal.str "B"), ("name", PyVal.str "Item B"),
        ("kind", PyVal.str waxKind)] "kind" = some (PyVal.str waxKind) := by
  refine ⟨claim3_kind_amended.2.1 initSession (PyVal.str "A")
      [("id", PyVal.str "A"), ("kind", PyVal.str "bogus")], ?_⟩
  exact claim3_kind_amended.2.2.2 [Op.patch (PyVal.str "A") [("name", PyVal.str "z")]]
      (by decide) _ (by decide)

/-- Claim C3 (counterexample): `PatchItem` never calls `AddWaxKind`, and the
patch's bindings win in the merge, so patching item `A` with
`{kind: "bogus"}` stores an item whose `kind` is `"bogus"`, not the
constant. -/
theorem claim3_counterexample :
    ¬ (∀ it ∈ run initSession [Op.patch (PyVal.str "A") [("kind", PyVal.str "bogus")]],
        alistGet it "kind" = some (PyVal.str waxKind)) := by
  decide

/-! ## C4: `_ReadChunkedPayload`, the chunked transfer-encoding decoder -/

/-- Models `string.hexdigits`. -/
def hexdigits : List Char := "0123456789abcdefABCDEF".data

/-- Models `int(c, 16)` for a single hexadecimal digit character. -/
def hexDigitVal (c : Char) : Nat :=
  if '0' ≤ c ∧ c ≤ '9' then c.toNat - 48
  else if 'a' ≤ c ∧ c ≤ 'f' then c.toNat - 87
  else c.toNat - 55

/-- The inner loop of `_ReadChunkedPayload`: read hex digit characters one at
a time, accumulating the chunk size, until a `\r\n` terminator; any other
byte raises `ValueError('Expected \r\n termination')`.  At end of input
Python's `rfile.read(1)` returns `''`, which passes the substring test
`'' in string.hexdigits` and then makes `int('', 16)` raise `ValueError`. -/
def ReadChunkSize : Nat → List Char → Except String (Nat × List Char)
  | _, [] => .error "invalid literal for int() with base 16"
  | acc, c :: rest =>
      if c ∈ hexdigits then ReadChunkSize (16 * acc + hexDigitVal c) rest
      else if c = '\r' then
        match rest with
        | '\n' :: rest2 => .ok (acc, rest2)
        | _ => .error "Expected CRLF termination"
      else .error "Expected CRLF termination"

/-- The outer loop of `_ReadChunkedPayload`.  The `fuel` argument only bounds
the number of loop iterations: every iteration that continues consumes at
least two input characters, so with fuel `input.length + 1` (as used by
`ReadChunkedPayload`) the fuel case is never the reason the loop stops. -/
def ReadChunks : Nat → List Char → Except String (List Char)
  | 0, _ => .error "fuel exhausted"
  | fuel + 1, s =>
      match ReadChunkSize 0 s with
      | .error e => .error e
      | .ok (len, rest) =>
          if len = 0 then .ok []
          else
            match ReadChunks fuel (rest.drop len) with
            | .error e => .error e
            | .ok tail => .ok (rest.take len ++ tail)

/-- Models `WaxHandler._ReadChunkedPayload` on a byte sequence. -/
def ReadChunkedPayload (s : List Char) : Except String (List Char) :=
  ReadChunks (s.length + 1) s

/-- One encoded chunk, as described by the claim: a hexadecimal size line
terminated by `\r\n`, followed by exactly that many payload bytes. -/
def encodeChunk (sizeDigits payload : List Char) : List Char :=
  sizeDigits ++ '\r' :: '\n' :: payload

/-- A whole encoded body: the chunks in order, ended by a zero-size chunk
(whose size line is `termDigits`). -/
def encodeBody (chunks : List (List Char × List Char)) (termDigits : List Char) :
    List Char :=
  (chunks.map fun cp => encodeChunk cp.1 cp.2).flatten ++ termDigits ++ ['\r', '\n']

/-- The value denoted by a hexadecimal digit string, accumulated exactly the
way the decoder loop does. -/
def hexValDigits (ds : List Char) : Nat :=
  ds.foldl (fun a c => 16 * a + hexDigitVal c) 0

/-- A well-formed non-terminal chunk: non-empty hex size line whose value is
the payload length; a zero size would mark the end of the body, so the
payload of a listed chunk is non-empty. -/
def GoodChunk (cp : List Char × List Char) : Prop :=
  cp.1 ≠ [] ∧ (∀ c ∈ cp.1, c ∈ hexdigits) ∧ hexValDigits cp.1 = cp.2.length ∧ cp.2 ≠ []

/-- A well-formed zero-size terminator line. -/
def GoodTerm (ds : List Char) : Prop :=
  (∀ c ∈ ds, c ∈ hexdigits) ∧ hexValDigits ds = 0

instance (cp : List Char × List Char) : Decidable (GoodChunk cp) :=
  inferInstanceAs (Decidable (cp.1 ≠ [] ∧ (∀ c ∈ cp.1, c ∈ hexdigits) ∧
    hexValDigits cp.1 = cp.2.length ∧ cp.2 ≠ []))

instance (ds : List Char) : Decidable (GoodTerm ds) :=
  inferInstanceAs (Decidable ((∀ c ∈ ds, c ∈ hexdigits) ∧ hexValDigits ds = 0))

theorem ReadChunkSize_spec : ∀ (ds : List Char) (acc : Nat) (r : List Char),
    (∀ c ∈ ds, c ∈ hexdigits) →
    ReadChunkSize acc (ds ++ '\r' :: '\n' :: r) =
      .ok (ds.foldl (fun a c => 16 * a + hexDigitVal c) acc, r)
  | [], acc, r, _ => by
      rw [List.nil_append]
      show ReadChunkSize acc ('\r' :: '\n' :: r) = .ok (acc, r)
      simp [ReadChunkSize]
      intro h
      exact absurd h (by decide)
  | c :: ds, acc, r, h => by
      have hc : c ∈ hexdigits := h c (List.mem_cons_self c ds)
      rw [List.cons_append]
      simp only [ReadChunkSize, if_pos hc, List.foldl_cons]
      exact ReadChunkSize_spec ds _ r (fun x hx => h x (List.mem_cons_of_mem _ hx))

theorem ReadChunkSize_hexVal (ds r : List Char) (h : ∀ c ∈ ds, c ∈ hexdigits) :
    ReadChunkSize 0 (ds ++ '\r' :: '\n' :: r) = .ok (hexValDigits ds, r) :=
  ReadChunkSize_spec ds 0 r h

theorem ReadChunks_encodeBody :
    ∀ (chunks : List (List Char × List Char)) (term : List Char) (fuel : Nat),
    (∀ cp ∈ chunks, GoodChunk cp) → GoodTerm term → chunks.length < fuel →
    ReadChunks fuel (encodeBody chunks term) = .ok (chunks.map (·.2)).flatten
  | [], term, fuel + 1, _, hterm, _ => by
      have hbody : encodeBody [] term = term ++ '\r' :: '\n' :: [] := by
        simp [encodeBody]
      rw [hbody]
      simp only [ReadChunks, ReadChunkSize_hexVal term [] hterm.1, hterm.2, if_pos rfl]
      rfl
  | cp :: rest, term, fuel + 1, hall, hterm, hlt => by
      obtain ⟨hne, hhex, hval, hpne⟩ := hall cp (List.mem_cons_self cp rest)
      have hbody : encodeBody (cp :: rest) term =
          cp.1 ++ '\r' :: '\n' :: (cp.2 ++ encodeBody rest term) := by
        simp [encodeBody, encodeChunk, List.append_assoc]
      rw [hbody]
      simp only [ReadChunks, ReadChunkSize_hexVal cp.1 _ hhex, hval]
      rw [if_neg (by intro h0; exact hpne (List.eq_nil_of_length_eq_zero h0))]
      rw [List.take_left, List.drop_left]
      rw [ReadChunks_encodeBody rest term fuel
        (fun x hx => hall x (List.mem_cons_of_mem _ hx)) hterm (Nat.lt_of_succ_lt_succ hlt)]
      simp

theorem encodeBody_length_ge (chunks : List (List Char × List Char))
    (term : List Char) : chunks.length ≤ (encodeBody chunks term).length := by
  induction chunks with
  | nil => simp [encodeBody]
  | cons cp rest ih =>
      have hsplit : encodeBody (cp :: rest) term =
          encodeChunk cp.1 cp.2 ++ encodeBody rest term := by
        simp [encodeBody, encodeChunk, List.append_assoc]
      rw [hsplit, List.length_append, List.length_cons]
      have h2 : 1 ≤ (encodeChunk cp.1 cp.2).length := by
        simp [encodeChunk]
        omega
      omega

/-- Claim C4: decoding a well-formed chunked body — hex size lines terminated
by `\r\n`, each followed by exactly that many payload bytes, ended by a
zero-size chunk — yields the concatenation of the chunk payloads in order;
a size-line byte that is neither a hex digit nor the start of a `\r\n`
terminator makes decoding fail; and decoding `"4\r\nWiki\r\n0\r\n\r\n"`
yields `"Wiki"`. -/
theorem claim4_chunked_decode :
    (∀ (chunks : List (List Char × List Char)) (term : List Char),
        (∀ cp ∈ chunks, GoodChunk cp) → GoodTerm term →
        ReadChunkedPayload (encodeBody chunks term) = .ok (chunks.map (·.2)).flatten) ∧
    (∀ (acc : Nat) (c : Char) (rest : List Char), c ∉ hexdigits → c ≠ '\r' →
        ReadChunkSize acc (c :: rest) = .error "Expected CRLF termination") ∧
    ReadChunkedPayload "4\r\nWiki\r\n0\r\n\r\n".data = .ok "Wiki".data := by
  refine ⟨fun chunks term hall hterm => ?_, fun acc c rest hnh hnr => ?_, by rfl⟩
  · exact ReadChunks_encodeBody chunks term _ hall hterm
      (Nat.lt_succ_of_le (encodeBody_length_ge chunks term))
  · simp [ReadChunkSize, hnh, hnr]

theorem claim4_chunked_decode_witness :
    ReadChunkedPayload (encodeBody [(['4'], "Wiki".data), (['5'], "pedia".data)] ['0']) =
      .ok "Wikipedia".data ∧
    ReadChunkSize 0 ['x'] = .error "Expected CRLF termination" := by
  refine ⟨?_, claim4_chunked_decode.2.1 0 'x' [] (by decide) (by decide)⟩
  have h := claim4_chunked_decode.1 [(['4'], "Wiki".data), (['5'], "pedia".data)] ['0']
      (by decide) (by decide)
  exact h.trans (by rfl)

/-! ## C6: `Repository` and session identifiers -/

/-- The decimal digit character of a value below ten. -/
def digitChar : Nat → Char
  | 0 => '0' | 1 => '1' | 2 => '2' | 3 => '3' | 4 => '4'
  | 5 => '5' | 6 => '6' | 7 => '7' | 8 => '8' | 9 => '9'
  | _ => '*'

/-- Little-endian decimal digit characters of `n`; the fuel argument (always
called with `fuel ≥ n`) only makes the recursion structural. -/
def natDigitsAux : Nat → Nat → List Char
  | _, 0 => []
  | 0, _ + 1 => []
  | fuel + 1, n + 1 => digitChar ((n + 1) % 10) :: natDigitsAux fuel ((n + 1) / 10)

/-- Models `'%s' % n` for a natural number: its decimal representation. -/
def natRepr (n : Nat) : String :=
  if n = 0 then "0" else ⟨(natDigitsAux n n).reverse⟩

theorem natDigitsAux_eq_digits : ∀ (fuel n : Nat), n ≤ fuel →
    natDigitsAux fuel n = (Nat.digits 10 n).map digitChar
  | _, 0, _ => by simp [natDigitsAux]
  | 0, n + 1, h => absurd h (by omega)
  | fuel + 1, n + 1, h => by
      rw [natDigitsAux, Nat.digits_def' (by norm_num : (1:Nat) < 10) (Nat.succ_pos n),
        List.map_cons]
      rw [natDigitsAux_eq_digits fuel ((n + 1) / 10)
        (by have := Nat.div_lt_self (Nat.succ_pos n) (by norm_num : (1:Nat) < 10); omega)]

/-- Numeric value of a decimal digit character (`int(c)` on `'0'..'9'`). -/
def digitVal (c : Char) : Nat := c.toNat - 48

/-- Read a decimal representation back; inverse to `natRepr`. -/
def unRepr (s : String) : Nat := s.data.foldl (fun a c => 10 * a + digitVal c) 0

theorem digitVal_digitChar {d : Nat} (h : d < 10) : digitVal (digitChar d) = d := by
  have : ∀ d : Fin 10, digitVal (digitChar d.val) = d.val := by decide
  exact this ⟨d, h⟩

theorem foldr_digits_eq_ofDigits (ds : List Nat) (h : ∀ d ∈ ds, d < 10) :
    ds.foldr (fun d a => 10 * a + digitVal (digitChar d)) 0 = Nat.ofDigits 10 ds := by
  induction ds with
  | nil => simp [Nat.ofDigits_nil]
  | cons d tail ih =>
      rw [List.foldr_cons, ih (fun x hx => h x (List.mem_cons_of_mem _ hx)),
        Nat.ofDigits_cons, digitVal_digitChar (h d (List.mem_cons_self d tail))]
      omega

theorem unRepr_natRepr (n : Nat) : unRepr (natRepr n) = n := by
  by_cases h0 : n = 0
  · subst h0; rfl
  · rw [natRepr, if_neg h0]
    show ((natDigitsAux n n).reverse.foldl (fun a c => 10 * a + digitVal c) 0) = n
    rw [natDigitsAux_eq_digits n n (Nat.le_refl n), List.foldl_reverse, List.foldr_map]
    rw [foldr_digits_eq_ofDigits _ (fun d hd => Nat.digits_lt_base (by norm_num) hd),
      Nat.ofDigits_digits]

theorem natRepr_injective {m n : Nat} (h : natRepr m = natRepr n) : m = n := by
  have h1 := congrArg unRepr h
  rwa [unRepr_natRepr, unRepr_natRepr] at h1

/-- The generated session identifier `'%s-%s-%s' % (basename, nodeid, seq)`. -/
def sessionKey (basename nodeid : String) (n : Nat) : String :=
  basename ++ "-" ++ nodeid ++ "-" ++ natRepr n

theorem sessionKey_inj {b node : String} {m n : Nat}
    (h : sessionKey b node m = sessionKey b node n) : m = n := by
  have hd := congrArg String.data h
  simp only [sessionKey, String.data_append] at hd
  have h1 := List.append_cancel_left hd
  have h2 : natRepr m = natRepr n := by
    cases hm : natRepr m with
    | mk dm =>
        cases hn : natRepr n with
        | mk dn =>
            rw [hm, hn] at h1
            exact congrArg String.mk h1
  exact natRepr_injective h2

/-- Models `Repository`: the session registry.  The node id is `str(time.clock())`
in the source; real time is outside the model, so it is a parameter. -/
structure Repository where
  sessions : List (String × List Item)
  nodeid : String
  seq : Nat

/-- Models `Repository.__init__`. -/
def Repository.init (nodeid : String) : Repository := ⟨[], nodeid, 0⟩

/-- Models `Repository.GetSessionData`. -/
def Repository.GetSessionData (r : Repository) (key : String) : Option (List Item) :=
  alistGet r.sessions key

/-- Models `Repository.RemoveIdentifier`: `self._sessions.pop(key, None)`. -/
def Repository.RemoveIdentifier (r : Repository) (key : String) :
    Option (List Item) × Repository :=
  (alistGet r.sessions key,
   { r with sessions := r.sessions.eraseP (fun p => decide (p.1 = key)) })

/-- Models `Repository.NewIdentifier`: increment the sequence number, format the
identifier, register a fresh seeded session under it. -/
def Repository.NewIdentifier (r : Repository) (basename : String) :
    String × Repository :=
  let n := r.seq + 1
  let key := sessionKey basename r.nodeid n
  (key, { r with seq := n, sessions := alistSet r.sessions key initSession })

/-- Client-visible operations on one repository. -/
inductive RepoOp where
  | newId (basename : String)
  | removeId (key : String)

/-- Run repository operations, collecting the identifiers returned by
`NewIdentifier`. -/
def runRepo : Repository → List RepoOp → Repository × List String
  | r, [] => (r, [])
  | r, .newId b :: rest =>
      let p := r.NewIdentifier b
      let q := runRepo p.2 rest
      (q.1, p.1 :: q.2)
  | r, .removeId k :: rest => runRepo (r.RemoveIdentifier k).2 rest

/-- Counts the `NewIdentifier` calls. -/
def isNewId : RepoOp → Bool
  | .newId _ => true
  | .removeId _ => false

/-- All `NewIdentifier` operations in the sequence use basename `b`. -/
def opBasenameOk (b : String) : RepoOp → Prop
  | .newId bb => bb = b
  | .removeId _ => True

instance (b : String) : DecidablePred (opBasenameOk b) := fun op =>
  match op with
  | .newId bb => inferInstanceAs (Decidable (bb = b))
  | .removeId _ => inferInstanceAs (Decidable True)

theorem runRepo_ids : ∀ (ops : List RepoOp) (r : Repository) (b : String),
    (∀ op ∈ ops, opBasenameOk b op) →
    (runRepo r ops).2 =
      (List.range (ops.countP isNewId)).map
        (fun i => sessionKey b r.nodeid (r.seq + i + 1))
  | [], r, b, _ => by simp [runRepo]
  | .newId bb :: rest, r, b, h => by
      have hbb : bb = b := h (.newId bb) (List.mem_cons_self _ _)
      subst hbb
      have ih := runRepo_ids rest (r.NewIdentifier bb).2 bb
        (fun op ho => h op (List.mem_cons_of_mem _ ho))
      simp only [runRepo]
      rw [ih]
      simp only [Repository.NewIdentifier]
      have hc : (RepoOp.newId bb :: rest).countP isNewId = rest.countP isNewId + 1 := by
        simp [List.countP_cons, isNewId]
      rw [hc, List.range_succ_eq_map, List.map_cons, List.map_map]
      congr 1
      · simp
        intro a _
        congr 1
        omega
  | .removeId k :: rest, r, b, h => by
      have ih := runRepo_ids rest (r.RemoveIdentifier k).2 b
        (fun op ho => h op (List.mem_cons_of_mem _ ho))
      simp only [runRepo]
      rw [ih]
      have hc : (RepoOp.removeId k :: rest).countP isNewId = rest.countP isNewId := by
        simp [List.countP_cons, isNewId]
      rw [hc]
      rfl

/-- Claim C6: from a fresh repository, any mix of `NewIdentifier(b)` and
`RemoveIdentifier` calls yields exactly the identifiers
`b ++ "-" ++ nodeid ++ "-" ++ str(i)` for the consecutive (strictly
increasing) sequence numbers `i = 1, 2, …`; they are pairwise distinct (a
sequence number is never reused, even after a removal); each fresh
identifier resolves through `GetSessionData` to a session that initially
contains exactly the items with ids `A` and `B`, both stamped with
`kind = 'wax#waxDataItem'`. -/
theorem claim6_identifiers (node b : String) (ops : List RepoOp)
    (hb : ∀ op ∈ ops, opBasenameOk b op) :
    ((runRepo (Repository.init node) ops).2 =
      (List.range (ops.countP isNewId)).map (fun i => sessionKey b node (i + 1))) ∧
    (runRepo (Repository.init node) ops).2.Nodup ∧
    (∀ (r : Repository) (bb : String),
        (r.NewIdentifier bb).2.GetSessionData (r.NewIdentifier bb).1 =
          some initSession) ∧
    initSession.map itemId = [some (PyVal.str "A"), some (PyVal.str "B")] ∧
    (∀ it ∈ initSession, alistGet it "kind" = some (PyVal.str waxKind)) := by
  have hids := runRepo_ids ops (Repository.init node) b hb
  have hseq : ∀ i : Nat, (Repository.init node).seq + i + 1 = i + 1 := fun i => by
    simp [Repository.init]
  have hids' : (runRepo (Repository.init node) ops).2 =
      (List.range (ops.countP isNewId)).map (fun i => sessionKey b node (i + 1)) := by
    rw [hids]
    apply List.map_congr_left
    intro i _
    congr 1
    simp [Repository.init]
  refine ⟨hids', ?_, ?_, by decide, by decide⟩
  · rw [hids']
    refine (List.nodup_range _).map ?_
    intro i j hij
    have := sessionKey_inj hij
    omega
  · intro r bb
    simp [Repository.NewIdentifier, Repository.GetSessionData, alistGet_alistSet]

theorem claim6_identifiers_witness :
    (runRepo (Repository.init "n") [RepoOp.newId "s", RepoOp.removeId "s-n-1", RepoOp.newId "s"]).2 =
      (List.range 2).map (fun i => sessionKey "s" "n" (i + 1)) ∧
    (runRepo (Repository.init "n")
      [RepoOp.newId "s", RepoOp.removeId "s-n-1", RepoOp.newId "s"]).2.Nodup := by
  have h := claim6_identifiers "n" "s"
    [RepoOp.newId "s", RepoOp.removeId "s-n-1", RepoOp.newId "s"] (by decide)
  exact ⟨h.1, h.2.1⟩

/-! ## The HTTP layer: `WaxHandler` -/

/-- Python truthiness (`not x`) on JSON values. -/
def pyFalsy : PyVal → Bool
  | .str s => s.isEmpty
  | .int n => n == 0
  | .bool b => !b
  | .null => true
  | .list l => l.isEmpty
  | .dict d => d.isEmpty

/-- An uncaught Python exception escaping a handler (the request then gets
no HTTP response at all). -/
inductive PyErr where
  | valueError (msg : String)
  | keyError (key : String)
  | typeError
  | attributeError
deriving DecidableEq

/-- The parts of an HTTP request the handler reads.  `contentLength` is
`none` when the header is missing (`int(None)` then raises `TypeError`). -/
structure Request where
  method : String
  path : String
  transferEncoding : Option String
  contentLength : Option Nat
  contentType : Option String
  body : String

/-- Models `json.loads`, abstracted: the standard-library JSON parser, returning a
value or raising `ValueError` on malformed input.  All dispatch theorems are
parametric in it. -/
abbrev Loads := String → Except Unit PyVal

/-- Response bodies: plain text, or the object handed to `json.dumps`. -/
inductive RespBody where
  | text : String → RespBody
  | json : PyVal → RespBody
deriving DecidableEq

structure Response where
  status : Nat
  body : RespBody
deriving DecidableEq

/-- Models `_SendJsonErrorResponse`: the JSON error object `{message, code}`. -/
def errorResponse (msg : String) (code : Nat) : Response :=
  ⟨code, .json (.dict [("message", .str msg), ("code", .int code)])⟩

/-- The `json.loads` step of `_GetJson`, including the falsy check that maps
`{}`, `[]`, `0`, `false`, `null` (and `""`) to "no payload". -/
def loadsJson (loads : Loads) (payload : String) : Except PyErr (Option PyVal) :=
  match loads payload with
  | .error _ => .error (.valueError "No JSON object could be decoded")
  | .ok v => if pyFalsy v then .ok none else .ok (some v)

/-- Models `WaxHandler._GetJson`: read the payload (chunked transfer-encoding or
Content-Length bytes — the empty-payload/content-type check exists only in
the non-chunked branch), then JSON-decode it.  `ok none` is the Python
`return None`; exceptions propagate to the server loop. -/
def GetJson (loads : Loads) (req : Request) : Except PyErr (Option PyVal) :=
  if req.transferEncoding = some "chunked" then
    match ReadChunkedPayload req.body.data with
    | .error e => .error (.valueError e)
    | .ok payload => loadsJson loads ⟨payload⟩
  else
    match req.contentLength with
    | none => .error .typeError
    | some len =>
        let payload : String := ⟨req.body.data.take len⟩
        if payload.data = [] ∨ req.contentType ≠ some "application/json" then .ok none
        else loadsJson loads payload

/-- Models `'%s' % v`, Python `str()` of the scalar values that can reach
identifier formatting (the container cases are abbreviated; nothing proved
below depends on them). -/
def pyToStr : PyVal → String
  | .str s => s
  | .int n => if n < 0 then "-" ++ natRepr (-n).toNat else natRepr n.toNat
  | .bool b => cond b "True" "False"
  | .null => "None"
  | .list _ => "<list>"
  | .dict _ => "<dict>"

/-- Models `obj[key]` on a parsed JSON value: `KeyError` when a dictionary lacks
the key, `TypeError` when the value is not a dictionary. -/
def pyGetKey (v : PyVal) (k : String) : Except PyErr PyVal :=
  match v with
  | .dict d =>
      match alistGet d k with
      | some x => .ok x
      | none => .error (.keyError k)
  | _ => .error .typeError

/-- Models `_ProcessNewSessionCommand`. -/
def ProcessNewSessionCommand (loads : Loads) (repo : Repository) (req : Request) :
    Except PyErr (Response × Repository) :=
  match GetJson loads req with
  | .error e => .error e
  | .ok none => .ok (errorResponse "Invalid JSON" 400, repo)
  | .ok (some rj) =>
      match pyGetKey rj "sessionName" with
      | .error e => .error e
      | .ok name =>
          let p := repo.NewIdentifier (pyToStr name)
          .ok (⟨200, .json (.dict [("kind", .str "wax#waxNewSession"),
            ("newSessionId", .str p.1)])⟩, p.2)

/-- Models `_ProcessRemoveSessionCommand`.  `pop` with a non-string key never
matches the stored (string) session keys. -/
def ProcessRemoveSessionCommand (loads : Loads) (repo : Repository) (req : Request) :
    Except PyErr (Response × Repository) :=
  match GetJson loads req with
  | .error e => .error e
  | .ok none => .ok (errorResponse "Invalid JSON" 400, repo)
  | .ok (some rj) =>
      match pyGetKey rj "sessionId" with
      | .error e => .error e
      | .ok key =>
          let p := match key with
            | .str k => repo.RemoveIdentifier k
            | _ => (none, repo)
          match p.1 with
          | none => .ok (errorResponse "Unknown sessionId" 404, p.2)
          | some _ => .ok (⟨200, .json (.dict [("kind", .str "wax#waxRemoveSession"),
              ("removeSessionId", key)])⟩, p.2)

/-- Models `_ProcessGetSessionItemsCommand`. -/
def ProcessGetSessionItemsCommand (sd : List Item) : Response :=
  ⟨200, .json (.dict [("kind", .str "wax#waxList"), ("items", .list (sd.map PyVal.dict))])⟩

/-- Models `_ProcessInsertNewItemCommand` (the 3 ms artificial delay before the
success response is real time, outside the model).  `request_json.get` on a
non-dictionary raises `AttributeError`. -/
def ProcessInsertNewItemCommand (loads : Loads) (req : Request) (sd : List Item) :
    Except PyErr (Response × List Item) :=
  match GetJson loads req with
  | .error e => .error e
  | .ok none => .ok (errorResponse "Invalid JSON" 400, sd)
  | .ok (some rj) =>
      match rj with
      | .dict d =>
          match alistGet d "id" with
          | none => .ok (errorResponse "JSON missing id" 400, sd)
          | some idv =>
              if pyFalsy idv then .ok (errorResponse "JSON missing id" 400, sd)
              else
                let p := AddNewItem sd idv d
                match p.1 with
                | some added => .ok (⟨200, .json (.dict added)⟩, p.2)
                | none => .ok (errorResponse "Item already exists" 403, p.2)
      | _ => .error .attributeError

/-- Models `_ProcessGetItemCommand`. -/
def ProcessGetItemCommand (sd : List Item) (iid : String) : Response :=
  match GetItemCopy sd (.str iid) with
  | some it => ⟨200, .json (.dict it)⟩
  | none => errorResponse "Unknown item" 404

/-- Models `_ProcessDeleteItemCommand`. -/
def ProcessDeleteItemCommand (sd : List Item) (iid : String) : Response × List Item :=
  match DeleteItem sd (.str iid) with
  | (some _, sd') => (⟨204, .text ""⟩, sd')
  | (none, sd') => (errorResponse "Unknown item in session" 404, sd')

/-- Models `_ProcessPatchItemCommand`.  On a non-dictionary body
`request_json.items()` raises `AttributeError` — but only after the lookup
found an item; an absent item still yields 404 first. -/
def ProcessPatchItemCommand (sd : List Item) (iid : String) (rj : PyVal) :
    Except PyErr (Response × List Item) :=
  match rj with
  | .dict d =>
      match PatchItem sd (.str iid) d with
      | (some w, sd') => .ok (⟨200, .json (.dict w)⟩, sd')
      | (none, sd') => .ok (errorResponse "Unknown item in session" 404, sd')
  | _ =>
      match FindItem sd (.str iid) with
      | none => .ok (errorResponse "Unknown item in session" 404, sd)
      | some _ => .error .attributeError

/-- Models `_ProcessUpdateItemCommand`: `request_json.setdefault('id', item_id)`,
reject a mismatched id with 400, otherwise `ReplaceItem` and 200. -/
def ProcessUpdateItemCommand (sd : List Item) (iid : String) (rj : PyVal) :
    Except PyErr (Response × List Item) :=
  match rj with
  | .dict d =>
      let d' := if (alistGet d "id").isSome then d else alistSet d "id" (.str iid)
      if alistGet d' "id" ≠ some (.str iid) then
        .ok (errorResponse "Mismatched item ids" 400, sd)
      else
        let p := ReplaceItem sd (.str iid) d'
        .ok (⟨200, .json (.dict p.1)⟩, p.2)
  | _ => .error .attributeError

/-- Anchored match of `'^/sessions/([^/]+)/items/([^/]+)'` against a path:
since `[^/]+` cannot match a slash, each capture is the maximal non-empty
slash-free run, and trailing characters are ignored. -/
def matchItemCommand (path : List Char) : Option (String × String) :=
  if path.take 10 = "/sessions/".data then
    let r := path.drop 10
    let s := r.takeWhile (fun c => c ≠ '/')
    if s = [] then none
    else
      let r1 := r.dropWhile (fun c => c ≠ '/')
      if r1.take 7 = "/items/".data then
        let i := (r1.drop 7).takeWhile (fun c => c ≠ '/')
        if i = [] then none else some (⟨s⟩, ⟨i⟩)
      else none
  else none

/-- Anchored match of `'^/sessions/([^/]+)/items'`. -/
def matchSessionCommand (path : List Char) : Option String :=
  if path.take 10 = "/sessions/".data then
    let r := path.drop 10
    let s := r.takeWhile (fun c => c ≠ '/')
    if s = [] then none
    else
      let r1 := r.dropWhile (fun c => c ≠ '/')
      if r1.take 6 = "/items".data then some ⟨s⟩ else none
  else none

/-- In Python the handler mutates the session object aliased inside the
repository; the pure model writes the updated session back. -/
def writeback (repo : Repository) (sid : String) (sd : List Item) : Repository :=
  { repo with sessions := alistSet repo.sessions sid sd }

/-- Models `_HandleSessionMethod`. -/
def HandleSessionMethod (loads : Loads) (req : Request) (repo : Repository)
    (method sid : String) : Except PyErr (Response × Repository) :=
  match repo.GetSessionData sid with
  | none => .ok (errorResponse "Unknown sessionId" 404, repo)
  | some sd =>
      if method = "GET" then .ok (ProcessGetSessionItemsCommand sd, repo)
      else if method = "POST" then
        match ProcessInsertNewItemCommand loads req sd with
        | .error e => .error e
        | .ok p => .ok (p.1, writeback repo sid p.2)
      else .ok (errorResponse "Unhandled method" 405, repo)

/-- Models `_HandleItemMethod`.  Note that for any method other than GET and
DELETE the JSON body is read (and required) *before* the method is
recognised, so even an unsupported method needs a readable truthy body to
reach the 405 branch. -/
def HandleItemMethod (loads : Loads) (req : Request) (repo : Repository)
    (method sid iid : String) : Except PyErr (Response × Repository) :=
  match repo.GetSessionData sid with
  | none => .ok (errorResponse "Unknown sessionId" 404, repo)
  | some sd =>
      if method = "GET" then .ok (ProcessGetItemCommand sd iid, repo)
      else if method = "DELETE" then
        let p := ProcessDeleteItemCommand sd iid
        .ok (p.1, writeback repo sid p.2)
      else
        match GetJson loads req with
        | .error e => .error e
        | .ok none => .ok (errorResponse "Invalid JSON" 400, repo)
        | .ok (some rj) =>
            if method = "PATCH" then
              match ProcessPatchItemCommand sd iid rj with
              | .error e => .error e
              | .ok p => .ok (p.1, writeback repo sid p.2)
            else if method = "PUT" then
              match ProcessUpdateItemCommand sd iid rj with
              | .error e => .error e
              | .ok p => .ok (p.1, writeback repo sid p.2)
            else .ok (errorResponse "Unhandled method" 405, repo)

/-- Models `_DispatchMethod`: route on the path (the method check is fused with
the path check for `/newsession` and `/removesession`; the item pattern is
tried before the session pattern).  The `/quit` branch also clears the
server-loop flag, which is outside the model. -/
def DispatchMethod (loads : Loads) (repo : Repository) (req : Request) :
    Except PyErr (Response × Repository) :=
  if req.path = "/quit" then .ok (⟨200, .text "BYE"⟩, repo)
  else if req.path = "/newsession" ∧ req.method = "POST" then
    ProcessNewSessionCommand loads repo req
  else if req.path = "/removesession" ∧ req.method = "POST" then
    ProcessRemoveSessionCommand loads repo req
  else
    match matchItemCommand req.path.data with
    | some si => HandleItemMethod loads req repo req.method si.1 si.2
    | none =>
        match matchSessionCommand req.path.data with
        | some sid => HandleSessionMethod loads req repo req.method sid
        | none => .ok (errorResponse "URL Not Available" 404, repo)

/-- The HTTP response of a dispatch, dropping the repository state. -/
def dispatchResp (x : Except PyErr (Response × Repository)) : Except PyErr Response :=
  x.map Prod.fst

/-- Models `json.loads` on the handful of concrete payloads used in the concrete
theorems below, each mapped to its real JSON parse; other inputs error. -/
def loadsEx : Loads := fun s =>
  if s = "0" then .ok (.int 0)
  else if s = "null" then .ok .null
  else if s = "\x7b\"a\": 1\x7d" then .ok (.dict [("a", PyVal.int 1)])
  else .error ()

/-! ## Helper lemmas about `_GetJson` and the dispatch -/

theorem getJson_empty_payload (loads : Loads) (req : Request)
    (h1 : req.transferEncoding ≠ some "chunked") (h2 : req.contentLength = some 0) :
    GetJson loads req = .ok none := by
  simp [GetJson, h1, h2]

theorem getJson_parsed (loads : Loads) (req : Request) (len : Nat) (v : PyVal)
    (h1 : req.transferEncoding ≠ some "chunked") (h2 : req.contentLength = some len)
    (h3 : req.body.data.take len ≠ []) (h4 : req.contentType = some "application/json")
    (h5 : loads ⟨req.body.data.take len⟩ = .ok v) :
    GetJson loads req = if pyFalsy v then .ok none else .ok (some v) := by
  simp [GetJson, h1, h2, h3, h4, loadsJson, h5]

theorem getJson_chunked_parsed (loads : Loads) (req : Request)
    (payload : List Char) (v : PyVal)
    (h1 : req.transferEncoding = some "chunked")
    (h2 : ReadChunkedPayload req.body.data = .ok payload)
    (h3 : loads ⟨payload⟩ = .ok v) :
    GetJson loads req = if pyFalsy v then .ok none else .ok (some v) := by
  simp [GetJson, h1, h2, loadsJson, h3]

theorem dispatch_newsession_nobody (loads : Loads) (repo : Repository) (req : Request)
    (hp : req.path = "/newsession") (hm : req.method = "POST")
    (hj : GetJson loads req = .ok none) :
    dispatchResp (DispatchMethod loads repo req) =
      .ok (errorResponse "Invalid JSON" 400) := by
  simp [DispatchMethod, hp, hm, ProcessNewSessionCommand, hj, dispatchResp, Except.map]

theorem dispatch_removesession_nobody (loads : Loads) (repo : Repository) (req : Request)
    (hp : req.path = "/removesession") (hm : req.method = "POST")
    (hj : GetJson loads req = .ok none) :
    dispatchResp (DispatchMethod loads repo req) =
      .ok (errorResponse "Invalid JSON" 400) := by
  simp [DispatchMethod, hp, hm, ProcessRemoveSessionCommand, hj, dispatchResp, Except.map]

theorem dispatch_session_route (loads : Loads) (repo : Repository) (req : Request)
    (sid : String)
    (hitem : matchItemCommand req.path.data = none)
    (hsess : matchSessionCommand req.path.data = some sid)
    (hq : req.path ≠ "/quit") (hn : req.path ≠ "/newsession")
    (hr : req.path ≠ "/removesession") :
    DispatchMethod loads repo req =
      HandleSessionMethod loads req repo req.method sid := by
  simp [DispatchMethod, hq, hn, hr, hitem, hsess]

theorem dispatch_item_route (loads : Loads) (repo : Repository) (req : Request)
    (sid iid : String)
    (hitem : matchItemCommand req.path.data = some (sid, iid))
    (hq : req.path ≠ "/quit") (hn : req.path ≠ "/newsession")
    (hr : req.path ≠ "/removesession") :
    DispatchMethod loads repo req =
      HandleItemMethod loads req repo req.method sid iid := by
  simp [DispatchMethod, hq, hn, hr, hitem]

theorem dispatch_items_post_nobody (loads : Loads) (repo : Repository) (req : Request)
    (sid : String) (sd : List Item)
    (hitem : matchItemCommand req.path.data = none)
    (hsess : matchSessionCommand req.path.data = some sid)
    (hq : req.path ≠ "/quit") (hn : req.path ≠ "/newsession")
    (hr : req.path ≠ "/removesession")
    (hm : req.method = "POST") (hsd : repo.GetSessionData sid = some sd)
    (hj : GetJson loads req = .ok none) :
    dispatchResp (DispatchMethod loads repo req) =
      .ok (errorResponse "Invalid JSON" 400) := by
  rw [dispatch_session_route loads repo req sid hitem hsess hq hn hr]
  simp [HandleSessionMethod, hsd, hm, ProcessInsertNewItemCommand, hj, dispatchResp, Except.map]

theorem dispatch_item_nobody (loads : Loads) (repo : Repository) (req : Request)
    (sid iid : String) (sd : List Item)
    (hitem : matchItemCommand req.path.data = some (sid, iid))
    (hq : req.path ≠ "/quit") (hn : req.path ≠ "/newsession")
    (hr : req.path ≠ "/removesession")
    (hg : req.method ≠ "GET") (hd : req.method ≠ "DELETE")
    (hsd : repo.GetSessionData sid = some sd)
    (hj : GetJson loads req = .ok none) :
    dispatchResp (DispatchMethod loads repo req) =
      .ok (errorResponse "Invalid JSON" 400) := by
  rw [dispatch_item_route loads repo req sid iid hitem hq hn hr]
  simp [HandleItemMethod, hsd, hg, hd, hj, dispatchResp, Except.map]

/-- Claim C8 (amended): the 400-with-JSON-error-body contract holds for an
*empty or absent* payload (and, via the falsy check, a falsy JSON body) on
every body-requiring route, for a missing or falsy `id` on item insertion,
and for a mismatched `id` on PUT; but a *malformed* (unparseable, non-empty)
JSON body raises an uncaught `ValueError`, and a parsed body missing
`sessionName` (or `sessionId`) raises an uncaught `KeyError` — those
requests get no HTTP response at all (see `claim8_counterexample`). -/
theorem claim8_request_errors_amended (loads : Loads) (repo : Repository) (req : Request) :
    (req.transferEncoding ≠ some "chunked" → req.contentLength = some 0 →
      GetJson loads req = .ok none) ∧
    (req.path = "/newsession" → req.method = "POST" → GetJson loads req = .ok none →
      dispatchResp (DispatchMethod loads repo req) = .ok (errorResponse "Invalid JSON" 400)) ∧
    (req.path = "/removesession" → req.method = "POST" → GetJson loads req = .ok none →
      dispatchResp (DispatchMethod loads repo req) = .ok (errorResponse "Invalid JSON" 400)) ∧
    (∀ sid sd, matchItemCommand req.path.data = none →
      matchSessionCommand req.path.data = some sid →
      req.path ≠ "/quit" → req.path ≠ "/newsession" → req.path ≠ "/removesession" →
      req.method = "POST" → repo.GetSessionData sid = some sd →
      GetJson loads req = .ok none →
      dispatchResp (DispatchMethod loads repo req) = .ok (errorResponse "Invalid JSON" 400)) ∧
    (∀ sid iid sd, matchItemCommand req.path.data = some (sid, iid) →
      req.path ≠ "/quit" → req.path ≠ "/newsession" → req.path ≠ "/removesession" →
      req.method ≠ "GET" → req.method ≠ "DELETE" →
      repo.GetSessionData sid = some sd → GetJson loads req = .ok none →
      dispatchResp (DispatchMethod loads repo req) = .ok (errorResponse "Invalid JSON" 400)) ∧
    (∀ sid sd (d : Item), matchItemCommand req.path.data = none →
      matchSessionCommand req.path.data = some sid →
      req.path ≠ "/quit" → req.path ≠ "/newsession" → req.path ≠ "/removesession" →
      req.method = "POST" → repo.GetSessionData sid = some sd →
      GetJson loads req = .ok (some (.dict d)) →
      (alistGet d "id" = none ∨ ∃ v, alistGet d "id" = some v ∧ pyFalsy v = true) →
      dispatchResp (DispatchMethod loads repo req) = .ok (errorResponse "JSON missing id" 400)) ∧
    (∀ sid iid sd (d : Item) (v : PyVal), matchItemCommand req.path.data = some (sid, iid) →
      req.path ≠ "/quit" → req.path ≠ "/newsession" → req.path ≠ "/removesession" →
      req.method = "PUT" → repo.GetSessionData sid = some sd →
      GetJson loads req = .ok (some (.dict d)) →
      alistGet d "id" = some v → v ≠ .str iid →
      dispatchResp (DispatchMethod loads repo req) = .ok (errorResponse "Mismatched item ids" 400)) ∧
    (req.path = "/newsession" → req.method = "POST" →
      GetJson loads req = .error (.valueError "No JSON object could be decoded") →
      DispatchMethod loads repo req = .error (.valueError "No JSON object could be decoded")) := by
  refine ⟨getJson_empty_payload loads req,
    dispatch_newsession_nobody loads repo req,
    dispatch_removesession_nobody loads repo req,
    fun sid sd h1 h2 h3 h4 h5 h6 h7 h8 =>
      dispatch_items_post_nobody loads repo req sid sd h1 h2 h3 h4 h5 h6 h7 h8,
    fun sid iid sd h1 h2 h3 h4 h5 h6 h7 h8 =>
      dispatch_item_nobody loads repo req sid iid sd h1 h2 h3 h4 h5 h6 h7 h8,
    fun sid sd d h1 h2 h3 h4 h5 h6 h7 h8 h9 => ?_,
    fun sid iid sd d v h1 h2 h3 h4 h5 h6 h7 h8 h9 => ?_,
    fun hp hm hj => ?_⟩
  · rw [dispatch_session_route loads repo req sid h1 h2 h3 h4 h5]
    rcases h9 with h9 | ⟨v, hv, hfv⟩
    · simp [HandleSessionMethod, h7, h6, ProcessInsertNewItemCommand, h8, h9, dispatchResp, Except.map]
    · simp [HandleSessionMethod, h7, h6, ProcessInsertNewItemCommand, h8, hv, hfv, dispatchResp, Except.map]
  · rw [dispatch_item_route loads repo req sid iid h1 h2 h3 h4]
    have hgid : alistGet d "id" = some v := h8
    simp [HandleItemMethod, h6, h5, h7, ProcessUpdateItemCommand, hgid, h9, dispatchResp, Except.map]
  · simp [DispatchMethod, hp, hm, ProcessNewSessionCommand, hj]

def repoEx : Repository := Repository.init "node1"

def reqEmptyNewsession : Request :=
  ⟨"POST", "/newsession", none, some 0, some "application/json", ""⟩

theorem claim8_request_errors_amended_witness :
    dispatchResp (DispatchMethod loadsEx repoEx reqEmptyNewsession) =
      .ok (errorResponse "Invalid JSON" 400) := by
  have h := claim8_request_errors_amended loadsEx repoEx reqEmptyNewsession
  exact h.2.1 rfl rfl (h.1 (by decide) rfl)

def reqMissingSessionName : Request :=
  ⟨"POST", "/newsession", none, some 8, some "application/json", "\x7b\"a\": 1\x7d"⟩

/-- Claim C8 (counterexample): a *syntactically valid, truthy* JSON body that
merely lacks the required `sessionName` field does not produce a 400 —
`request_json['sessionName']` raises an uncaught `KeyError`, so the request
gets no HTTP response at all. -/
theorem claim8_counterexample :
    DispatchMethod loadsEx repoEx reqMissingSessionName =
      .error (.keyError "sessionName") := by
  rfl

/-- Claim C9 (amended): 405 is only produced inside the two session-resource
handlers: an unsupported method on `/sessions/{s}/items` (anything but GET
and POST, with the session present), and an unsupported method on
`/sessions/{s}/items/{i}` (anything but GET/DELETE/PATCH/PUT, with the
session present *and* a readable truthy JSON body — the body is read before
the method is recognised).  `GET /newsession` and `GET /removesession` fall
through to the 404 catch-all instead (see `claim9_counterexample`). -/
theorem claim9_unhandled_method_amended (loads : Loads) (repo : Repository) (req : Request) :
    (∀ sid sd, matchItemCommand req.path.data = none →
      matchSessionCommand req.path.data = some sid →
      req.path ≠ "/quit" → req.path ≠ "/newsession" → req.path ≠ "/removesession" →
      repo.GetSessionData sid = some sd →
      req.method ≠ "GET" → req.method ≠ "POST" →
      dispatchResp (DispatchMethod loads repo req) =
        .ok (errorResponse "Unhandled method" 405)) ∧
    (∀ sid iid sd v, matchItemCommand req.path.data = some (sid, iid) →
      req.path ≠ "/quit" → req.path ≠ "/newsession" → req.path ≠ "/removesession" →
      repo.GetSessionData sid = some sd →
      req.method ≠ "GET" → req.method ≠ "DELETE" → req.method ≠ "PATCH" →
      req.method ≠ "PUT" → GetJson loads req = .ok (some v) →
      dispatchResp (DispatchMethod loads repo req) =
        .ok (errorResponse "Unhandled method" 405)) := by
  constructor
  · intro sid sd h1 h2 h3 h4 h5 h6 h7 h8
    rw [dispatch_session_route loads repo req sid h1 h2 h3 h4 h5]
    simp [HandleSessionMethod, h6, h7, h8, dispatchResp, Except.map]
  · intro sid iid sd v h1 h2 h3 h4 h5 h6 h7 h8 h9 h10
    rw [dispatch_item_route loads repo req sid iid h1 h2 h3 h4]
    simp [HandleItemMethod, h5, h6, h7, h8, h9, h10, dispatchResp, Except.map]

def repoWithSession : Repository := ⟨[("s1", initSession)], "node1", 1⟩

def reqPatchCollection : Request :=
  ⟨"PATCH", "/sessions/s1/items", none, some 0, none, ""⟩

theorem claim9_unhandled_method_amended_witness :
    dispatchResp (DispatchMethod loadsEx repoWithSession reqPatchCollection) =
      .ok (errorResponse "Unhandled method" 405) :=
  (claim9_unhandled_method_amended loadsEx repoWithSession reqPatchCollection).1
    "s1" initSession (by decide) (by decide) (by decide) (by decide) (by decide)
    (by decide) (by decide) (by decide)

def reqGetNewsession : Request := ⟨"GET", "/newsession", none, none, none, ""⟩

/-- Claim C9 (counterexample): `GET /newsession` matches a route pattern with
an unsupported method, but the dispatcher's path check is fused with the
method check, so the request falls through to the 404 catch-all — not 405. -/
theorem claim9_counterexample :
    dispatchResp (DispatchMethod loadsEx repoEx reqGetNewsession) =
      .ok (errorResponse "URL Not Available" 404) ∧
    dispatchResp (DispatchMethod loadsEx repoEx reqGetNewsession) ≠
      .ok (errorResponse "Unhandled method" 405) := by
  constructor
  · rfl
  · intro h
    rw [show dispatchResp (DispatchMethod loadsEx repoEx reqGetNewsession) =
        .ok (errorResponse "URL Not Available" 404) from rfl] at h
    exact absurd (congrArg Response.status (Except.ok.inj h)) (by decide)

/-- Claim C10: a body that parses to a falsy JSON value (`{}`, `[]`, `0`,
`false`, `null`) is reported by `_GetJson` as absent (`None`) — in either
the Content-Length or the chunked branch — so each of the five body-reading
routes answers 400 `Invalid JSON`, exactly as for a missing body, even
though the body was syntactically valid JSON. -/
theorem claim10_falsy_body (loads : Loads) (repo : Repository) (req : Request) (v : PyVal) :
    (∀ len, req.transferEncoding ≠ some "chunked" → req.contentLength = some len →
      req.body.data.take len ≠ [] → req.contentType = some "application/json" →
      loads ⟨req.body.data.take len⟩ = .ok v → pyFalsy v = true →
      GetJson loads req = .ok none) ∧
    (∀ payload, req.transferEncoding = some "chunked" →
      ReadChunkedPayload req.body.data = .ok payload → loads ⟨payload⟩ = .ok v →
      pyFalsy v = true → GetJson loads req = .ok none) ∧
    (req.path = "/newsession" → req.method = "POST" → GetJson loads req = .ok none →
      dispatchResp (DispatchMethod loads repo req) = .ok (errorResponse "Invalid JSON" 400)) ∧
    (req.path = "/removesession" → req.method = "POST" → GetJson loads req = .ok none →
      dispatchResp (DispatchMethod loads repo req) = .ok (errorResponse "Invalid JSON" 400)) ∧
    (∀ sid sd, matchItemCommand req.path.data = none →
      matchSessionCommand req.path.data = some sid →
      req.path ≠ "/quit" → req.path ≠ "/newsession" → req.path ≠ "/removesession" →
      req.method = "POST" → repo.GetSessionData sid = some sd →
      GetJson loads req = .ok none →
      dispatchResp (DispatchMethod loads repo req) = .ok (errorResponse "Invalid JSON" 400)) ∧
    (∀ sid iid sd, matchItemCommand req.path.data = some (sid, iid) →
      req.path ≠ "/quit" → req.path ≠ "/newsession" → req.path ≠ "/removesession" →
      req.method ≠ "GET" → req.method ≠ "DELETE" →
      repo.GetSessionData sid = some sd → GetJson loads req = .ok none →
      dispatchResp (DispatchMethod loads repo req) = .ok (errorResponse "Invalid JSON" 400)) := by
  refine ⟨fun len h1 h2 h3 h4 h5 h6 => ?_, fun payload h1 h2 h3 h4 => ?_,
    dispatch_newsession_nobody loads repo req,
    dispatch_removesession_nobody loads repo req,
    fun sid sd h1 h2 h3 h4 h5 h6 h7 h8 =>
      dispatch_items_post_nobody loads repo req sid sd h1 h2 h3 h4 h5 h6 h7 h8,
    fun sid iid sd h1 h2 h3 h4 h5 h6 h7 h8 =>
      dispatch_item_nobody loads repo req sid iid sd h1 h2 h3 h4 h5 h6 h7 h8⟩
  · rw [getJson_parsed loads req len v h1 h2 h3 h4 h5, if_pos h6]
  · rw [getJson_chunked_parsed loads req payload v h1 h2 h3, if_pos h4]

def reqZeroNewsession : Request :=
  ⟨"POST", "/newsession", none, some 1, some "application/json", "0"⟩

theorem claim10_falsy_body_witness :
    dispatchResp (DispatchMethod loadsEx repoEx reqZeroNewsession) =
      .ok (errorResponse "Invalid JSON" 400) := by
  have h := claim10_falsy_body loadsEx repoEx reqZeroNewsession (.int 0)
  exact h.2.2.1 rfl rfl (h.1 1 (by decide) rfl (by decide) rfl rfl rfl)

end WaxServer
